import Mathlib

/-!
Shallow embedding of the survey backend's core logic (answer-update
strategies, validator pipelines, survey statistics) and proofs about it.

Sources embedded:
- `survey/services/answer_update.py` (per-question-type answer strategies)
- `survey/services/validators.py` (validator pipeline and per-question checks)
- `survey/models.py` (`Survey.save`, `UserAnswerManager.get_survey_stat`)
- `survey/services/complete_survey.py` (`StatSurveyService`)
- `survey/api/views.py` (`UserAnswerViewSet._get_or_create_user_response`)

Machine state (the relational store) is modelled as explicit lists of
records; `QuerySet.first()` is the head of the filtered list in store
order, and row identity (`uuid`) is an explicit field so that in-place
updates and deletes can be expressed.
-/

namespace SurveyApp

/-- `Survey.Status` from `survey/models.py`. -/
inductive SurveyStatus where
  | draft
  | active
  | closed
  | archived
deriving DecidableEq, Repr

/-- `Question.QuestionType` from `survey/models.py`. -/
inductive QuestionType where
  | single_choice
  | multiple_choice
  | text
deriving DecidableEq, Repr

/-- `UserResponse.Status` from `survey/models.py`. -/
inductive ResponseStatus where
  | in_progress
  | completed
deriving DecidableEq, Repr

/-- One `UserAnswer` row: links a respondent session (`user_response`) to a
question, with an optional selected option and an optional free text. -/
structure UserAnswer where
  uuid : Nat
  user_response : Nat
  question : Nat
  answer_option : Option Nat
  text_answer : Option String
deriving DecidableEq, Repr

/-- The `UserAnswer` table plus a fresh-uuid counter for row creation. -/
structure Store where
  rows : List UserAnswer
  next_uuid : Nat
deriving DecidableEq, Repr

/-- Python truthiness of a `str | None` value: `None` and `""` are falsy. -/
def truthyText : Option String → Bool
  | none => false
  | some t => !t.isEmpty

/-- Store well-formedness: row uuids are pairwise distinct and below the
fresh counter, so creating a row with `next_uuid` keeps them distinct. -/
def Store.WF (s : Store) : Prop :=
  s.rows.Pairwise (fun a b => a.uuid ≠ b.uuid) ∧ ∀ r ∈ s.rows, r.uuid < s.next_uuid

instance (s : Store) : Decidable s.WF := by
  unfold Store.WF; infer_instance

/-- `UserAnswer.objects.filter(user_response=..., question=...)` in store
order: all answer rows of one session for one question. -/
def filterAnswers (s : Store) (ur q : Nat) : List UserAnswer :=
  s.rows.filter fun a => a.user_response == ur && a.question == q

/-- Append a freshly created `UserAnswer` row (`UserAnswer.objects.create`). -/
def createAnswer (s : Store) (ur q : Nat) (opt : Option Nat) (t : Option String) : Store :=
  { rows := s.rows ++ [⟨s.next_uuid, ur, q, opt, t⟩], next_uuid := s.next_uuid + 1 }

/-- Delete one row by uuid (`answer.delete()`). -/
def deleteAnswer (s : Store) (u : Nat) : Store :=
  { s with rows := s.rows.filter fun r => r.uuid != u }

/-- `TextQuestionStrategy._perform_answer_update`: non-empty incoming text
overwrites `text_answer` in place, empty/absent text deletes the row. -/
def performAnswerUpdate (s : Store) (a : UserAnswer) (t : Option String) : Store :=
  if truthyText t then
    { s with rows := s.rows.map fun r => if r.uuid == a.uuid then { r with text_answer := t } else r }
  else
    deleteAnswer s a.uuid

/-- `TextQuestionStrategy._perform_answer_create`: creates a row only when
the incoming text is non-empty. -/
def performAnswerCreate (s : Store) (ur q : Nat) (t : Option String) : Store :=
  if truthyText t then createAnswer s ur q none t else s

/-- `TextQuestionStrategy.handle_answer` from `answer_update.py`. -/
def textHandleAnswer (s : Store) (ur q : Nat) (t : Option String) : Store :=
  match (filterAnswers s ur q).head? with
  | some a => performAnswerUpdate s a t
  | none => performAnswerCreate s ur q t

/-- `SingleChoiceQuestionStrategy.handle_answer` from `answer_update.py`:
overwrite the existing answer's option in place, or create the answer. -/
def singleChoiceHandleAnswer (s : Store) (ur q : Nat) (opt : Option Nat) : Store :=
  match (filterAnswers s ur q).head? with
  | some a =>
      { s with rows := s.rows.map fun r => if r.uuid == a.uuid then { r with answer_option := opt } else r }
  | none => createAnswer s ur q opt none

/-- `MultipleChoiceQuestionStrategy.handle_answer` from `answer_update.py`:
toggle — delete the existing row for this option, else create one. -/
def multipleChoiceHandleAnswer (s : Store) (ur q : Nat) (opt : Option Nat) : Store :=
  match ((filterAnswers s ur q).filter fun a => a.answer_option == opt).head? with
  | some a => deleteAnswer s a.uuid
  | none => createAnswer s ur q opt none

/-- Iterated submission of the same option to a multiple-choice question. -/
def iterateMC (s : Store) (ur q : Nat) (opt : Option Nat) : Nat → Store
  | 0 => s
  | n + 1 => iterateMC (multipleChoiceHandleAnswer s ur q opt) ur q opt n

/-- Fold a sequence of submitted options through the single-choice strategy. -/
def singleChoiceRun (s : Store) (ur q : Nat) (opts : List Nat) : Store :=
  opts.foldl (fun st o => singleChoiceHandleAnswer st ur q (some o)) s

/-- Rows of one session for one question that select a given option. -/
def optionRows (s : Store) (ur q o : Nat) : List UserAnswer :=
  s.rows.filter fun a => a.user_response == ur && a.question == q && a.answer_option == some o

/-- Rows of one session for one question selecting any option other than `o`. -/
def otherOptionRows (s : Store) (ur q o : Nat) : List UserAnswer :=
  s.rows.filter fun a => a.user_response == ur && a.question == q && a.answer_option != some o

/-! ### Helper lemmas about the store operations -/

lemma filterAnswers_create (s : Store) (ur q : Nat) (opt : Option Nat) (t : Option String) :
    filterAnswers (createAnswer s ur q opt t) ur q =
      filterAnswers s ur q ++ [⟨s.next_uuid, ur, q, opt, t⟩] := by
  simp [filterAnswers, createAnswer]

lemma filterAnswers_delete (s : Store) (u ur q : Nat) :
    filterAnswers (deleteAnswer s u) ur q =
      (filterAnswers s ur q).filter fun r => r.uuid != u := by
  simp only [filterAnswers, deleteAnswer, List.filter_filter]
  exact List.filter_congr fun x _ => by rw [Bool.and_comm]

lemma filterAnswers_map (s : Store) (ur q : Nat) (f : UserAnswer → UserAnswer)
    (hf : ∀ r, (f r).user_response = r.user_response ∧ (f r).question = r.question) :
    filterAnswers { s with rows := s.rows.map f } ur q = (filterAnswers s ur q).map f := by
  simp only [filterAnswers, List.filter_map]
  congr 1
  exact List.filter_congr fun x _ => by
    simp [Function.comp, (hf x).1, (hf x).2]

lemma optionRows_create_same (s : Store) (ur q o : Nat) (t : Option String) :
    optionRows (createAnswer s ur q (some o) t) ur q o =
      optionRows s ur q o ++ [⟨s.next_uuid, ur, q, some o, t⟩] := by
  simp [optionRows, createAnswer]

lemma otherOptionRows_create_same (s : Store) (ur q o : Nat) (t : Option String) :
    otherOptionRows (createAnswer s ur q (some o) t) ur q o = otherOptionRows s ur q o := by
  simp [otherOptionRows, createAnswer]

lemma optionRows_delete (s : Store) (u ur q o : Nat) :
    optionRows (deleteAnswer s u) ur q o =
      (optionRows s ur q o).filter fun r => r.uuid != u := by
  simp only [optionRows, deleteAnswer, List.filter_filter]
  exact List.filter_congr fun x _ => by rw [Bool.and_comm]

lemma otherOptionRows_delete (s : Store) (u ur q o : Nat) :
    otherOptionRows (deleteAnswer s u) ur q o =
      (otherOptionRows s ur q o).filter fun r => r.uuid != u := by
  simp only [otherOptionRows, deleteAnswer, List.filter_filter]
  exact List.filter_congr fun x _ => by rw [Bool.and_comm]

lemma createAnswer_WF (s : Store) (ur q : Nat) (opt : Option Nat) (t : Option String)
    (h : s.WF) : (createAnswer s ur q opt t).WF := by
  obtain ⟨hpw, hlt⟩ := h
  constructor
  · rw [createAnswer, List.pairwise_append]
    refine ⟨hpw, by simp, ?_⟩
    intro a ha b hb
    simp only [List.mem_singleton] at hb
    subst hb
    exact Nat.ne_of_lt (hlt a ha)
  · intro r hr
    simp only [createAnswer, List.mem_append, List.mem_singleton] at hr
    rcases hr with hr | hr
    · exact Nat.lt_succ_of_lt (hlt r hr)
    · subst hr; exact Nat.lt_succ_self _

lemma deleteAnswer_WF (s : Store) (u : Nat) (h : s.WF) : (deleteAnswer s u).WF := by
  obtain ⟨hpw, hlt⟩ := h
  exact ⟨hpw.sublist (List.filter_sublist _), fun r hr => hlt r (List.mem_of_mem_filter hr)⟩

lemma map_WF (s : Store) (f : UserAnswer → UserAnswer)
    (hf : ∀ r, (f r).uuid = r.uuid) (h : s.WF) : ({ s with rows := s.rows.map f } : Store).WF := by
  obtain ⟨hpw, hlt⟩ := h
  constructor
  · rw [List.pairwise_map]
    exact hpw.imp fun {a b} hab => by rw [hf a, hf b]; exact hab
  · intro r hr
    simp only [List.mem_map] at hr
    obtain ⟨x, hx, rfl⟩ := hr
    rw [hf x]
    exact hlt x hx

/-- The scrutinee of the multiple-choice strategy as a single filter. -/
lemma filterAnswers_filter_opt (s : Store) (ur q o : Nat) :
    ((filterAnswers s ur q).filter fun a => a.answer_option == some o) =
      optionRows s ur q o := by
  simp only [filterAnswers, optionRows, List.filter_filter]
  exact List.filter_congr fun x _ => by
    rw [Bool.and_comm, Bool.and_assoc]

/-! ### Step lemmas for the three strategies -/

lemma multipleChoice_step_empty (s : Store) (ur q o : Nat)
    (h0 : optionRows s ur q o = []) :
    multipleChoiceHandleAnswer s ur q (some o) = createAnswer s ur q (some o) none := by
  unfold multipleChoiceHandleAnswer
  rw [filterAnswers_filter_opt, h0]
  rfl

lemma multipleChoice_step_one (s : Store) (ur q o : Nat) (r : UserAnswer) (rest : List UserAnswer)
    (h1 : optionRows s ur q o = r :: rest) :
    multipleChoiceHandleAnswer s ur q (some o) = deleteAnswer s r.uuid := by
  unfold multipleChoiceHandleAnswer
  rw [filterAnswers_filter_opt, h1]
  rfl

lemma optionRows_mem_option (s : Store) (ur q o : Nat) (r : UserAnswer)
    (hr : r ∈ optionRows s ur q o) : r.answer_option = some o := by
  simp only [optionRows, List.mem_filter, Bool.and_eq_true, beq_iff_eq] at hr
  tauto

lemma otherOptionRows_uuid_ne (s : Store) (hwf : s.WF) (ur q o : Nat) (r : UserAnswer)
    (hr : r ∈ optionRows s ur q o) (x : UserAnswer) (hx : x ∈ otherOptionRows s ur q o) :
    x.uuid ≠ r.uuid := by
  have hxo : x.answer_option ≠ some o := by
    simp only [otherOptionRows, List.mem_filter, Bool.and_eq_true, bne_iff_ne, ne_eq] at hx
    tauto
  have hro := optionRows_mem_option s ur q o r hr
  have hxr : x ≠ r := fun h => hxo (h ▸ hro)
  have hxmem : x ∈ s.rows := List.mem_of_mem_filter hx
  have hrmem : r ∈ s.rows := List.mem_of_mem_filter hr
  have hsym : Symmetric (fun a b : UserAnswer => a.uuid ≠ b.uuid) := fun a b h => h.symm
  exact hwf.1.forall hsym hxmem hrmem hxr

lemma otherOptionRows_delete_of_mem (s : Store) (hwf : s.WF) (ur q o : Nat) (r : UserAnswer)
    (hr : r ∈ optionRows s ur q o) :
    otherOptionRows (deleteAnswer s r.uuid) ur q o = otherOptionRows s ur q o := by
  rw [otherOptionRows_delete]
  refine List.filter_eq_self.2 fun x hx => ?_
  exact bne_iff_ne.mpr (otherOptionRows_uuid_ne s hwf ur q o r hr x hx)

lemma iterateMC_parity (ur q o : Nat) (n : Nat) :
    ∀ s : Store, s.WF →
      (optionRows s ur q o = [] →
        (iterateMC s ur q (some o) n).WF ∧
        (optionRows (iterateMC s ur q (some o) n) ur q o).length = n % 2 ∧
        otherOptionRows (iterateMC s ur q (some o) n) ur q o = otherOptionRows s ur q o) ∧
      (∀ r, optionRows s ur q o = [r] →
        (iterateMC s ur q (some o) n).WF ∧
        (optionRows (iterateMC s ur q (some o) n) ur q o).length = (n + 1) % 2 ∧
        otherOptionRows (iterateMC s ur q (some o) n) ur q o = otherOptionRows s ur q o) := by
  induction n with
  | zero =>
      intro s hwf
      refine ⟨fun h0 => ⟨hwf, ?_, rfl⟩, fun r h1 => ⟨hwf, ?_, rfl⟩⟩
      · simp [iterateMC, h0]
      · simp [iterateMC, h1]
  | succ n ih =>
      intro s hwf
      constructor
      · intro h0
        have hstep := multipleChoice_step_empty s ur q o h0
        have hiter : iterateMC s ur q (some o) (n + 1) =
            iterateMC (createAnswer s ur q (some o) none) ur q (some o) n := by
          rw [iterateMC, hstep]
        have hwf' := createAnswer_WF s ur q (some o) none hwf
        have h1' : optionRows (createAnswer s ur q (some o) none) ur q o =
            [⟨s.next_uuid, ur, q, some o, none⟩] := by
          rw [optionRows_create_same, h0]
          rfl
        obtain ⟨hw, hl, ho⟩ := (ih (createAnswer s ur q (some o) none) hwf').2 _ h1'
        refine ⟨hiter ▸ hw, ?_, ?_⟩
        · rw [hiter, hl]
        · rw [hiter, ho, otherOptionRows_create_same]
      · intro r h1
        have hstep := multipleChoice_step_one s ur q o r [] h1
        have hiter : iterateMC s ur q (some o) (n + 1) =
            iterateMC (deleteAnswer s r.uuid) ur q (some o) n := by
          rw [iterateMC, hstep]
        have hwf' := deleteAnswer_WF s r.uuid hwf
        have h0' : optionRows (deleteAnswer s r.uuid) ur q o = [] := by
          rw [optionRows_delete, h1]
          simp
        have hrmem : r ∈ optionRows s ur q o := h1 ▸ List.mem_singleton_self r
        obtain ⟨hw, hl, ho⟩ := (ih (deleteAnswer s r.uuid) hwf').1 h0'
        refine ⟨hiter ▸ hw, ?_, ?_⟩
        · rw [hiter, hl]; omega
        · rw [hiter, ho, otherOptionRows_delete_of_mem s hwf ur q o r hrmem]

/-- C2: for a multiple-choice question, submitting option `o` an odd number
of times leaves exactly one answer row for `(session, question, o)` and an
even number of times leaves none, while rows for other options of the same
question are unaffected. -/
theorem multipleChoice_toggle (s : Store) (ur q o n : Nat)
    (hwf : s.WF) (h0 : optionRows s ur q o = []) :
    (n % 2 = 1 → ∃ r, optionRows (iterateMC s ur q (some o) n) ur q o = [r]) ∧
    (n % 2 = 0 → optionRows (iterateMC s ur q (some o) n) ur q o = []) ∧
    otherOptionRows (iterateMC s ur q (some o) n) ur q o = otherOptionRows s ur q o := by
  obtain ⟨_, hl, ho⟩ := (iterateMC_parity ur q o n s hwf).1 h0
  refine ⟨fun hodd => ?_, fun heven => ?_, ho⟩
  · exact List.length_eq_one.1 (by rw [hl, hodd])
  · exact List.length_eq_zero.1 (by rw [hl, heven])

theorem multipleChoice_toggle_witness :
    (Store.mk [] 0).WF ∧ optionRows (Store.mk [] 0) 0 0 5 = [] ∧
    ((3 % 2 = 1 → ∃ r, optionRows (iterateMC (Store.mk [] 0) 0 0 (some 5) 3) 0 0 5 = [r]) ∧
     (3 % 2 = 0 → optionRows (iterateMC (Store.mk [] 0) 0 0 (some 5) 3) 0 0 5 = []) ∧
     otherOptionRows (iterateMC (Store.mk [] 0) 0 0 (some 5) 3) 0 0 5 =
       otherOptionRows (Store.mk [] 0) 0 0 5) :=
  ⟨by decide, rfl, multipleChoice_toggle (Store.mk [] 0) 0 0 5 3 (by decide) rfl⟩

lemma singleChoice_step_empty (s : Store) (ur q : Nat) (o : Option Nat)
    (h0 : filterAnswers s ur q = []) :
    singleChoiceHandleAnswer s ur q o = createAnswer s ur q o none := by
  unfold singleChoiceHandleAnswer
  rw [h0]
  rfl

lemma singleChoice_step_one (s : Store) (ur q : Nat) (o : Option Nat) (r : UserAnswer)
    (h1 : filterAnswers s ur q = [r]) :
    filterAnswers (singleChoiceHandleAnswer s ur q o) ur q =
      [{ r with answer_option := o }] := by
  unfold singleChoiceHandleAnswer
  rw [h1]
  show filterAnswers { s with rows := s.rows.map _ } ur q = _
  rw [filterAnswers_map s ur q _ (fun x => by
    by_cases h : (x.uuid == r.uuid) = true <;> simp [h])]
  rw [h1]
  simp

lemma singleChoiceRun_cons (s : Store) (ur q o : Nat) (rest : List Nat) :
    singleChoiceRun s ur q (o :: rest) =
      singleChoiceRun (singleChoiceHandleAnswer s ur q (some o)) ur q rest := rfl

lemma singleChoiceRun_len (ur q : Nat) (opts : List Nat) :
    ∀ s : Store, (filterAnswers s ur q).length ≤ 1 →
      (filterAnswers (singleChoiceRun s ur q opts) ur q).length ≤ 1 := by
  induction opts with
  | nil => intro s h; exact h
  | cons o rest ih =>
      intro s h
      rw [singleChoiceRun_cons]
      refine ih _ ?_
      rcases hf : filterAnswers s ur q with _ | ⟨r, rest'⟩
      · rw [singleChoice_step_empty s ur q (some o) hf, filterAnswers_create, hf]
        simp
      · have hrest' : rest' = [] := by
          rw [hf] at h
          simpa using h
        subst hrest'
        rw [singleChoice_step_one s ur q (some o) r hf]
        simp

/-- C3: for a single-choice question, after any non-empty sequence of
submissions (starting from no stored answer for the session and question)
exactly one answer row exists and it references the last submitted option. -/
theorem singleChoice_last (s : Store) (ur q : Nat) (init : List Nat) (lastOpt : Nat)
    (h0 : filterAnswers s ur q = []) :
    ∃ r, filterAnswers (singleChoiceRun s ur q (init ++ [lastOpt])) ur q = [r] ∧
      r.answer_option = some lastOpt := by
  have hrun : singleChoiceRun s ur q (init ++ [lastOpt]) =
      singleChoiceHandleAnswer (singleChoiceRun s ur q init) ur q (some lastOpt) := by
    unfold singleChoiceRun
    rw [List.foldl_append]
    rfl
  have hlen : (filterAnswers (singleChoiceRun s ur q init) ur q).length ≤ 1 :=
    singleChoiceRun_len ur q init s (by rw [h0]; exact Nat.zero_le 1)
  rcases hf : filterAnswers (singleChoiceRun s ur q init) ur q with _ | ⟨r, rest'⟩
  · refine ⟨⟨(singleChoiceRun s ur q init).next_uuid, ur, q, some lastOpt, none⟩, ?_, rfl⟩
    rw [hrun, singleChoice_step_empty _ ur q (some lastOpt) hf, filterAnswers_create, hf]
    rfl
  · have hrest' : rest' = [] := by
      rw [hf] at hlen
      simpa using hlen
    subst hrest'
    refine ⟨{ r with answer_option := some lastOpt }, ?_, rfl⟩
    rw [hrun, singleChoice_step_one _ ur q (some lastOpt) r hf]

theorem singleChoice_last_witness :
    filterAnswers (Store.mk [] 0) 0 0 = [] ∧
    (∃ r, filterAnswers (singleChoiceRun (Store.mk [] 0) 0 0 ([1, 2] ++ [2])) 0 0 = [r] ∧
      r.answer_option = some 2) :=
  ⟨rfl, singleChoice_last (Store.mk [] 0) 0 0 [1, 2] 2 rfl⟩

lemma textHandle_empty_truthy (s : Store) (ur q : Nat) (t : Option String)
    (ht : truthyText t = true) (h0 : filterAnswers s ur q = []) :
    textHandleAnswer s ur q t = createAnswer s ur q none t := by
  unfold textHandleAnswer
  rw [h0]
  show performAnswerCreate s ur q t = _
  rw [performAnswerCreate, ht]
  rfl

lemma textHandle_empty_falsy (s : Store) (ur q : Nat) (t : Option String)
    (ht : truthyText t = false) (h0 : filterAnswers s ur q = []) :
    textHandleAnswer s ur q t = s := by
  unfold textHandleAnswer
  rw [h0]
  show performAnswerCreate s ur q t = s
  rw [performAnswerCreate, ht]
  rfl

lemma textHandle_one_truthy (s : Store) (ur q : Nat) (t : Option String) (r : UserAnswer)
    (ht : truthyText t = true) (h1 : filterAnswers s ur q = [r]) :
    filterAnswers (textHandleAnswer s ur q t) ur q = [{ r with text_answer := t }] := by
  unfold textHandleAnswer
  rw [h1]
  show filterAnswers (performAnswerUpdate s r t) ur q = _
  rw [performAnswerUpdate, ht]
  show filterAnswers { s with rows := s.rows.map _ } ur q = _
  rw [filterAnswers_map s ur q _ (fun x => by
    by_cases h : (x.uuid == r.uuid) = true <;> simp [h])]
  rw [h1]
  simp

lemma textHandle_one_falsy (s : Store) (ur q : Nat) (t : Option String) (r : UserAnswer)
    (ht : truthyText t = false) (h1 : filterAnswers s ur q = [r]) :
    filterAnswers (textHandleAnswer s ur q t) ur q = [] := by
  unfold textHandleAnswer
  rw [h1]
  show filterAnswers (performAnswerUpdate s r t) ur q = _
  rw [performAnswerUpdate, ht]
  show filterAnswers (deleteAnswer s r.uuid) ur q = _
  rw [filterAnswers_delete, h1]
  simp

lemma textHandle_len (s : Store) (ur q : Nat) (t : Option String)
    (h : (filterAnswers s ur q).length ≤ 1) :
    (filterAnswers (textHandleAnswer s ur q t) ur q).length ≤ 1 := by
  rcases hf : filterAnswers s ur q with _ | ⟨r, rest'⟩
  · cases ht : truthyText t
    · rw [textHandle_empty_falsy s ur q t ht hf, hf]
      simp
    · rw [textHandle_empty_truthy s ur q t ht hf, filterAnswers_create, hf]
      simp
  · have hrest' : rest' = [] := by
      rw [hf] at h
      simpa using h
    subst hrest'
    cases ht : truthyText t
    · rw [textHandle_one_falsy s ur q t r ht hf]
      simp
    · rw [textHandle_one_truthy s ur q t r ht hf]
      simp

/-- C4: for a text question, non-empty incoming text creates the answer if
absent and updates it in place otherwise; empty or absent incoming text
deletes the existing answer and is a no-op when none exists, so a non-empty
submission followed by an empty one leaves no answer for the session and
question. -/
theorem textStrategy_spec (s : Store) (ur q : Nat) (t : Option String)
    (hlen : (filterAnswers s ur q).length ≤ 1) :
    (truthyText t = true → filterAnswers s ur q = [] →
      filterAnswers (textHandleAnswer s ur q t) ur q = [⟨s.next_uuid, ur, q, none, t⟩]) ∧
    (∀ r, truthyText t = true → filterAnswers s ur q = [r] →
      filterAnswers (textHandleAnswer s ur q t) ur q = [{ r with text_answer := t }]) ∧
    (∀ r, truthyText t = false → filterAnswers s ur q = [r] →
      filterAnswers (textHandleAnswer s ur q t) ur q = []) ∧
    (truthyText t = false → filterAnswers s ur q = [] → textHandleAnswer s ur q t = s) ∧
    (∀ t2, truthyText t2 = false →
      filterAnswers (textHandleAnswer (textHandleAnswer s ur q t) ur q t2) ur q = []) := by
  refine ⟨?_, ?_, ?_, ?_, ?_⟩
  · intro ht h0
    rw [textHandle_empty_truthy s ur q t ht h0, filterAnswers_create, h0]
    rfl
  · intro r ht h1
    exact textHandle_one_truthy s ur q t r ht h1
  · intro r ht h1
    exact textHandle_one_falsy s ur q t r ht h1
  · intro ht h0
    exact textHandle_empty_falsy s ur q t ht h0
  · intro t2 ht2
    have hlen' := textHandle_len s ur q t hlen
    rcases hf : filterAnswers (textHandleAnswer s ur q t) ur q with _ | ⟨r, rest'⟩
    · rw [textHandle_empty_falsy _ ur q t2 ht2 hf, hf]
    · have hrest' : rest' = [] := by
        rw [hf] at hlen'
        simpa using hlen'
      subst hrest'
      exact textHandle_one_falsy _ ur q t2 r ht2 hf

theorem textStrategy_spec_witness :
    (filterAnswers (Store.mk [] 0) 0 0).length ≤ 1 ∧
    ((truthyText (some "hi") = true → filterAnswers (Store.mk [] 0) 0 0 = [] →
      filterAnswers (textHandleAnswer (Store.mk [] 0) 0 0 (some "hi")) 0 0 =
        [⟨0, 0, 0, none, some "hi"⟩]) ∧
    (∀ r, truthyText (some "hi") = true → filterAnswers (Store.mk [] 0) 0 0 = [r] →
      filterAnswers (textHandleAnswer (Store.mk [] 0) 0 0 (some "hi")) 0 0 =
        [{ r with text_answer := some "hi" }]) ∧
    (∀ r, truthyText (some "hi") = false → filterAnswers (Store.mk [] 0) 0 0 = [r] →
      filterAnswers (textHandleAnswer (Store.mk [] 0) 0 0 (some "hi")) 0 0 = []) ∧
    (truthyText (some "hi") = false → filterAnswers (Store.mk [] 0) 0 0 = [] →
      textHandleAnswer (Store.mk [] 0) 0 0 (some "hi") = Store.mk [] 0) ∧
    (∀ t2, truthyText t2 = false →
      filterAnswers (textHandleAnswer (textHandleAnswer (Store.mk [] 0) 0 0 (some "hi")) 0 0 t2)
        0 0 = [])) :=
  ⟨by decide, textStrategy_spec (Store.mk [] 0) 0 0 (some "hi") (by decide)⟩

/-! ### Per-question answer validation (`QuestionAnswersValidator`) -/

/-- A question with the respondent's prefetched answers, as consumed by the
per-question validators (`question.answers` scoped to one respondent). -/
structure QuestionCtx where
  uuid : Nat
  qtype : QuestionType
  answers : List UserAnswer
deriving DecidableEq, Repr

/-- `TextQuestionAnswerValidatorExtended.check`: the first answer must exist
and carry non-empty text. -/
def textQuestionCheck (q : QuestionCtx) : Option String :=
  match q.answers.head? with
  | none => some "Ответ отсутствует"
  | some a => if truthyText a.text_answer then none else some "Отсутствует текст в поле"

/-- `SingleChoiceQuestionAnswerValidatorExtended.check`: an answer must
exist and there must not be more than one. -/
def singleChoiceQuestionCheck (q : QuestionCtx) : Option String :=
  if q.answers.isEmpty then some "Ответ отсутствует"
  else if q.answers.length == 0 then some "Отсутствует ответ в поле"
  else if 1 < q.answers.length then some "Несколько ответов для единичнго поля"
  else none

/-- `MultipleChoiceValidatorExtendedQuestion.check`: at least one answer. -/
def multipleChoiceQuestionCheck (q : QuestionCtx) : Option String :=
  if q.answers.isEmpty then some "Ответ отсутствует" else none

/-- `QuestionAnswersValidator._validator_map` dispatch on the question type. -/
def questionCheck (q : QuestionCtx) : Option String :=
  match q.qtype with
  | QuestionType.text => textQuestionCheck q
  | QuestionType.single_choice => singleChoiceQuestionCheck q
  | QuestionType.multiple_choice => multipleChoiceQuestionCheck q

/-- The `question_error_map` accumulation loop in
`QuestionAnswersValidator.check`. -/
def buildQuestionErrorMap (qs : List QuestionCtx) : List (Nat × String) :=
  qs.foldl
    (fun acc q =>
      match questionCheck q with
      | some e => acc ++ [(q.uuid, e)]
      | none => acc)
    []

/-- `QuestionAnswersValidator.check`: `none` when validation passes, `some m`
when it raises the aggregate `ValidateAnswerError` carrying map `m`. -/
def questionAnswersValidator (qs : List QuestionCtx) : Option (List (Nat × String)) :=
  if (buildQuestionErrorMap qs).isEmpty then none else some (buildQuestionErrorMap qs)

/-- The claim's per-type sufficiency condition, written from the spec text:
Text — exactly one answer with non-empty text; SingleChoice — exactly one
answer; MultipleChoice — at least one answer. -/
def claimSufficient (q : QuestionCtx) : Bool :=
  match q.qtype with
  | QuestionType.text =>
      q.answers.length == 1 && q.answers.all fun a => truthyText a.text_answer
  | QuestionType.single_choice => q.answers.length == 1
  | QuestionType.multiple_choice => !q.answers.isEmpty

lemma buildQuestionErrorMap_eq (qs : List QuestionCtx) :
    buildQuestionErrorMap qs =
      qs.filterMap fun q => (questionCheck q).map fun e => (q.uuid, e) := by
  suffices h : ∀ acc,
      qs.foldl
        (fun acc q =>
          match questionCheck q with
          | some e => acc ++ [(q.uuid, e)]
          | none => acc)
        acc =
      acc ++ qs.filterMap fun q => (questionCheck q).map fun e => (q.uuid, e) by
    simpa using h []
  induction qs with
  | nil => intro acc; simp
  | cons q rest ih =>
      intro acc
      rcases hq : questionCheck q with _ | e
      · simp [List.foldl_cons, hq, ih acc]
      · simp [List.foldl_cons, hq, ih (acc ++ [(q.uuid, e)])]

lemma questionCheck_none_iff (q : QuestionCtx)
    (hText : q.qtype = QuestionType.text → q.answers.length ≤ 1) :
    questionCheck q = none ↔ claimSufficient q = true := by
  rcases q with ⟨u, ty, ans⟩
  rcases ty
  · rcases ans with _ | ⟨a, rest⟩
    · simp [questionCheck, singleChoiceQuestionCheck, claimSufficient]
    · rcases rest with _ | ⟨b, rest'⟩
      · simp [questionCheck, singleChoiceQuestionCheck, claimSufficient]
      · simp [questionCheck, singleChoiceQuestionCheck, claimSufficient]
  · rcases ans with _ | ⟨a, rest⟩
    · simp [questionCheck, multipleChoiceQuestionCheck, claimSufficient]
    · simp [questionCheck, multipleChoiceQuestionCheck, claimSufficient]
  · have hlen : ans.length ≤ 1 := hText rfl
    rcases ans with _ | ⟨a, rest⟩
    · simp [questionCheck, textQuestionCheck, claimSufficient]
    · have hrest : rest = [] := by simpa using hlen
      subst hrest
      simp [questionCheck, textQuestionCheck, claimSufficient]

/-- C1: when completing a survey, the per-question validator runs one
type-specific sufficiency check per question (Text: exactly one answer with
non-empty text; SingleChoice: exactly one, with distinct errors for zero and
for several; MultipleChoice: at least one), records each failure under the
question's id instead of aborting, and raises a single aggregate error
carrying the id-to-message map exactly when some question failed.
The hypothesis is the data-model multiplicity invariant (at most one stored
answer per session and Text question). -/
theorem questionAnswersValidator_spec (qs : List QuestionCtx)
    (hText : ∀ q ∈ qs, q.qtype = QuestionType.text → q.answers.length ≤ 1) :
    (questionAnswersValidator qs = none ↔ ∀ q ∈ qs, claimSufficient q = true) ∧
    (∀ m, questionAnswersValidator qs = some m ↔
      (m = (qs.filterMap fun q => (questionCheck q).map fun e => (q.uuid, e)) ∧ m ≠ [])) ∧
    (∀ q ∈ qs, (questionCheck q = none ↔ claimSufficient q = true)) ∧
    (∀ q ∈ qs, q.qtype = QuestionType.single_choice →
      (questionCheck q = some "Ответ отсутствует" ↔ q.answers.length = 0) ∧
      (questionCheck q = some "Несколько ответов для единичнго поля" ↔ 1 < q.answers.length)) := by
  have hnone : ∀ q ∈ qs, (questionCheck q = none ↔ claimSufficient q = true) :=
    fun q hq => questionCheck_none_iff q (hText q hq)
  have hmapnil : (qs.filterMap fun q => (questionCheck q).map fun e => (q.uuid, e)) = [] ↔
      ∀ q ∈ qs, claimSufficient q = true := by
    rw [List.filterMap_eq_nil_iff]
    constructor
    · intro hm q hq
      have := hm q hq
      rw [Option.map_eq_none'] at this
      exact (hnone q hq).1 this
    · intro hall q hq
      rw [Option.map_eq_none']
      exact (hnone q hq).2 (hall q hq)
  refine ⟨?_, ?_, hnone, ?_⟩
  · rw [questionAnswersValidator, buildQuestionErrorMap_eq]
    by_cases hc : (qs.filterMap fun q => (questionCheck q).map fun e => (q.uuid, e)).isEmpty = true
    · rw [if_pos hc]
      rw [List.isEmpty_iff] at hc
      simp only [true_iff]
      exact hmapnil.1 hc
    · rw [if_neg hc]
      rw [List.isEmpty_iff] at hc
      constructor
      · intro h; cases h
      · intro hall; exact absurd (hmapnil.2 hall) hc
  · intro m
    rw [questionAnswersValidator, buildQuestionErrorMap_eq]
    by_cases hc : (qs.filterMap fun q => (questionCheck q).map fun e => (q.uuid, e)).isEmpty = true
    · rw [if_pos hc]
      rw [List.isEmpty_iff] at hc
      constructor
      · intro h; cases h
      · rintro ⟨rfl, hne⟩; exact absurd hc hne
    · rw [if_neg hc]
      rw [List.isEmpty_iff] at hc
      constructor
      · rintro h; cases h; exact ⟨rfl, hc⟩
      · rintro ⟨rfl, _⟩; rfl
  · intro q hq hty
    rcases q with ⟨u, ty, ans⟩
    cases hty
    rcases ans with _ | ⟨a, rest⟩
    · simp [questionCheck, singleChoiceQuestionCheck]
    · rcases rest with _ | ⟨b, rest'⟩
      · simp [questionCheck, singleChoiceQuestionCheck]
      · simp [questionCheck, singleChoiceQuestionCheck]

theorem questionAnswersValidator_spec_witness :
    (∀ q ∈ [QuestionCtx.mk 7 QuestionType.text [],
            QuestionCtx.mk 8 QuestionType.multiple_choice [⟨0, 0, 8, some 3, none⟩]],
      q.qtype = QuestionType.text → q.answers.length ≤ 1) ∧
    (questionAnswersValidator
        [QuestionCtx.mk 7 QuestionType.text [],
         QuestionCtx.mk 8 QuestionType.multiple_choice [⟨0, 0, 8, some 3, none⟩]] = none ↔
      ∀ q ∈ [QuestionCtx.mk 7 QuestionType.text [],
             QuestionCtx.mk 8 QuestionType.multiple_choice [⟨0, 0, 8, some 3, none⟩]],
        claimSufficient q = true) :=
  ⟨by decide,
   (questionAnswersValidator_spec
      [QuestionCtx.mk 7 QuestionType.text [],
       QuestionCtx.mk 8 QuestionType.multiple_choice [⟨0, 0, 8, some 3, none⟩]]
      (by decide)).1⟩

/-! ### The submit-answer validator pipeline (`UserAnswerChecker`) -/

/-- The request context the submit-answer validators read: survey status,
the looked-up question's type (`none` when the question does not exist),
the payload's option reference and free text, and the resolved respondent
session's status (`none` when no session exists). -/
structure AnswerRequestCtx where
  survey_status : SurveyStatus
  question_type : Option QuestionType
  answer_option : Option Nat
  text_answer : Option String
  session_status : Option ResponseStatus
deriving DecidableEq, Repr

/-- `IsSurveyActiveValidator.check`. -/
def isSurveyActiveCheck (c : AnswerRequestCtx) : Option String :=
  if c.survey_status ≠ SurveyStatus.active then some "Опрос не активен" else none

/-- `ChoiceAnswerValidator.check`: a non-Text (or missing) question's answer
must not carry free text. -/
def choiceAnswerCheck (c : AnswerRequestCtx) : Option String :=
  if c.question_type ≠ some QuestionType.text ∧ truthyText c.text_answer = true then
    some "Ответ должен содержать выбранный вариант"
  else none

/-- `CompletedSurveyValidator.check`: the resolved session, if any, must not
already be completed. -/
def completedSurveyCheck (c : AnswerRequestCtx) : Option String :=
  if c.session_status = some ResponseStatus.completed then some "Опрос уже пройден" else none

/-- `TextAnswerValidator.check`: a Text question's answer must not carry an
option reference. -/
def textAnswerCheck (c : AnswerRequestCtx) : Option String :=
  if c.question_type = some QuestionType.text ∧ c.answer_option.isSome = true then
    some "Ответ должен содержать текст"
  else none

/-- `RequestBaseValidator.validate`: validators run in order and the first
raised error aborts the pipeline. -/
def runPipeline : List (AnswerRequestCtx → Option String) → AnswerRequestCtx → Option String
  | [], _ => none
  | v :: vs, c =>
    match v c with
    | some e => some e
    | none => runPipeline vs c

/-- `UserAnswerChecker.validators` in their source order. -/
def userAnswerChecker (c : AnswerRequestCtx) : Option String :=
  runPipeline [isSurveyActiveCheck, choiceAnswerCheck, completedSurveyCheck, textAnswerCheck] c

/-- Modelled from the claim text: a single combined shape check (claimed to
be the pipeline's second stage) covering both question-type mismatches. -/
def claimShapeCheck (c : AnswerRequestCtx) : Option String :=
  if c.question_type = some QuestionType.text ∧ c.answer_option.isSome = true then
    some "Ответ должен содержать текст"
  else if c.question_type ≠ some QuestionType.text ∧ truthyText c.text_answer = true then
    some "Ответ должен содержать выбранный вариант"
  else none

/-- Modelled from the claim text: the claimed order
(1) active, (2) shape, (3) session not completed. -/
def claimedUserAnswerChecker (c : AnswerRequestCtx) : Option String :=
  runPipeline [isSurveyActiveCheck, claimShapeCheck, completedSurveyCheck] c

/-- C5 counterexample: on an active survey, for a Text question whose answer
carries an option reference while the respondent's session is already
completed, the claimed order reports the shape error, but the code reports
the completed-session error — so the shape check for Text questions does not
run before the session check. -/
theorem userAnswerChecker_order_counterexample :
    textAnswerCheck
        (AnswerRequestCtx.mk SurveyStatus.active (some QuestionType.text) (some 1) none
          (some ResponseStatus.completed)) = some "Ответ должен содержать текст" ∧
    claimedUserAnswerChecker
        (AnswerRequestCtx.mk SurveyStatus.active (some QuestionType.text) (some 1) none
          (some ResponseStatus.completed)) = some "Ответ должен содержать текст" ∧
    userAnswerChecker
        (AnswerRequestCtx.mk SurveyStatus.active (some QuestionType.text) (some 1) none
          (some ResponseStatus.completed)) = some "Опрос уже пройден" :=
  ⟨rfl, rfl, rfl⟩

/-- C5 amended: the submit-answer pipeline checks, in order: (1) survey
Active, (2) a non-Text question's answer carries no free text, (3) the
respondent's session, if it exists, is not already Completed, (4) a Text
question's answer carries no option reference; the first failing check
aborts the pipeline. -/
theorem userAnswerChecker_order (c : AnswerRequestCtx) :
    userAnswerChecker c =
      if c.survey_status ≠ SurveyStatus.active then some "Опрос не активен"
      else if c.question_type ≠ some QuestionType.text ∧ truthyText c.text_answer = true then
        some "Ответ должен содержать выбранный вариант"
      else if c.session_status = some ResponseStatus.completed then some "Опрос уже пройден"
      else if c.question_type = some QuestionType.text ∧ c.answer_option.isSome = true then
        some "Ответ должен содержать текст"
      else none := by
  simp only [userAnswerChecker, runPipeline, isSurveyActiveCheck, choiceAnswerCheck,
    completedSurveyCheck, textAnswerCheck]
  split_ifs <;> rfl

/-! ### `Survey.save` and `end_date` (C8) -/

/-- The `Survey` row fields relevant to `Survey.save`. -/
structure SurveyRec where
  uuid : Nat
  name : String
  status : SurveyStatus
  is_anonymous : Bool
  end_date : Option Nat
deriving DecidableEq, Repr

/-- `Survey.save` from `models.py`: the record is saved, and when its status
is Closed at save time, `end_date` is set to the current time and the record
is saved again. Net effect on the stored row, with `now` the save time. -/
def surveySave (s : SurveyRec) (now : Nat) : SurveyRec :=
  if s.status = SurveyStatus.closed then { s with end_date := some now } else s

/-- C8 counterexample: a second save of an already-Closed survey at a later
time re-stamps `end_date`, so `end_date` is mutated by repeated saves of an
already-Closed survey. -/
theorem surveySave_end_date_counterexample :
    (surveySave (SurveyRec.mk 1 "S" SurveyStatus.closed false none) 5).end_date = some 5 ∧
    (surveySave (surveySave (SurveyRec.mk 1 "S" SurveyStatus.closed false none) 5) 7).end_date =
      some 7 :=
  ⟨rfl, rfl⟩

/-- C8 amended: `Survey.save` sets `end_date` to the save time exactly when
the survey's status is Closed at save time — including repeated saves of an
already-Closed survey, which re-stamp it — and leaves `end_date` and every
other field unchanged when the status is not Closed. -/
theorem surveySave_end_date (s : SurveyRec) (now : Nat) :
    (s.status = SurveyStatus.closed → (surveySave s now).end_date = some now) ∧
    (s.status ≠ SurveyStatus.closed → surveySave s now = s) ∧
    (surveySave s now).status = s.status ∧
    (surveySave s now).name = s.name ∧
    (surveySave s now).uuid = s.uuid := by
  unfold surveySave
  by_cases h : s.status = SurveyStatus.closed <;> simp [h]

theorem surveySave_end_date_witness :
    (surveySave (SurveyRec.mk 1 "S" SurveyStatus.closed false none) 5).end_date = some 5 :=
  (surveySave_end_date (SurveyRec.mk 1 "S" SurveyStatus.closed false none) 5).1 rfl

/-! ### Respondent-session uniqueness (C9) -/

/-- A `UserResponse` row: one respondent session of one survey. `user` is
`none` for anonymous sessions. -/
structure SessionRec where
  uuid : Nat
  survey : Nat
  user : Option Nat
  status : ResponseStatus
deriving DecidableEq, Repr

/-- Sessions of one survey belonging to one authenticated user. -/
def sessionsFor (db : List SessionRec) (survey user : Nat) : List SessionRec :=
  db.filter fun r => r.survey == survey && r.user == some user

/-- `UserAnswerViewSet._get_or_create_user_response` for an authenticated
caller, as one atomic step against a store whose
`unique_together ("survey", "user")` constraint (migration 0003) makes
check-and-insert race-free: return the existing `(survey, user)` session,
or insert a fresh `IN_PROGRESS` one. Returns the new store, the session,
and the `created` flag. -/
def getOrCreateUserResponse (db : List SessionRec) (survey user fresh : Nat) :
    List SessionRec × SessionRec × Bool :=
  match db.find? fun r => r.survey == survey && r.user == some user with
  | some r => (db, r, false)
  | none =>
      (db ++ [⟨fresh, survey, some user, ResponseStatus.in_progress⟩],
       ⟨fresh, survey, some user, ResponseStatus.in_progress⟩, true)

/-- The invariant the uniqueness constraint guarantees: at most one session
per `(survey, user)` pair. -/
def AtMostOneSession (db : List SessionRec) : Prop :=
  ∀ survey user : Nat, (sessionsFor db survey user).length ≤ 1

/-- A sequence of answer-submission session resolutions, each an atomic
get-or-create step. -/
def runGetOrCreate (db : List SessionRec) : List (Nat × Nat × Nat) → List SessionRec
  | [] => db
  | (survey, user, fresh) :: rest =>
      runGetOrCreate (getOrCreateUserResponse db survey user fresh).1 rest

lemma sessionsFor_append_single (db : List SessionRec) (x : SessionRec) (s u : Nat) :
    sessionsFor (db ++ [x]) s u =
      sessionsFor db s u ++ if x.survey == s && x.user == some u then [x] else [] := by
  rw [sessionsFor, sessionsFor, List.filter_append]
  congr 1
  by_cases h : (x.survey == s && x.user == some u) = true <;> simp [h]

lemma getOrCreate_preserves (db : List SessionRec) (survey user fresh : Nat)
    (h : AtMostOneSession db) :
    AtMostOneSession (getOrCreateUserResponse db survey user fresh).1 := by
  unfold getOrCreateUserResponse
  rcases hf : db.find? fun r => r.survey == survey && r.user == some user with _ | r
  · rw [hf]
    intro s u
    show (sessionsFor (db ++ [⟨fresh, survey, some user, ResponseStatus.in_progress⟩]) s u).length ≤ 1
    rw [sessionsFor_append_single]
    by_cases hp : ((⟨fresh, survey, some user, ResponseStatus.in_progress⟩ : SessionRec).survey == s
        && (⟨fresh, survey, some user, ResponseStatus.in_progress⟩ : SessionRec).user == some u) = true
    · simp only [hp, if_pos]
      have hs : survey = s ∧ some user = some u := by
        simpa using hp
      rcases hs with ⟨rfl, hu⟩
      have hu' : user = u := by simpa using hu
      subst hu'
      have hempty : sessionsFor db survey user = [] := by
        rw [List.find?_eq_none] at hf
        rw [sessionsFor]
        exact List.filter_eq_nil_iff.2 fun r hr => by
          simpa using hf r hr
      rw [hempty]
      simp
    · simp only [hp, if_neg, Bool.not_eq_true]
      simpa using h s u
  · rw [hf]
    exact h

lemma runGetOrCreate_preserves (ops : List (Nat × Nat × Nat)) :
    ∀ db : List SessionRec, AtMostOneSession db → AtMostOneSession (runGetOrCreate db ops) := by
  induction ops with
  | nil => intro db h; exact h
  | cons op rest ih =>
      intro db h
      rcases op with ⟨survey, user, fresh⟩
      exact ih _ (getOrCreate_preserves db survey user fresh h)

/-- C9: with the session store's `(survey, user)` uniqueness constraint and
the answer-submission path's atomic get-or-create step, every state reached
by a sequence of submissions keeps at most one session per `(survey, user)`;
moreover the step against an existing pair returns it unchanged (`created =
false`) and inserts nothing. -/
theorem sessionUniqueness (db : List SessionRec) (ops : List (Nat × Nat × Nat))
    (h : AtMostOneSession db) :
    AtMostOneSession (runGetOrCreate db ops) ∧
    (∀ survey user fresh r,
      (db.find? fun x => x.survey == survey && x.user == some user) = some r →
      getOrCreateUserResponse db survey user fresh = (db, r, false)) := by
  refine ⟨runGetOrCreate_preserves ops db h, ?_⟩
  intro survey user fresh r hr
  unfold getOrCreateUserResponse
  rw [hr]

theorem sessionUniqueness_witness :
    AtMostOneSession (runGetOrCreate [] [(1, 2, 0), (1, 2, 5), (3, 2, 6)]) :=
  (sessionUniqueness [] [(1, 2, 0), (1, 2, 5), (3, 2, 6)]
    (fun survey user => by simp [sessionsFor])).1

/-! ### Survey statistics (C6, C7, C10) -/

/-- A `Question` row. -/
structure QuestionRec where
  uuid : Nat
  survey : Nat
  seq_id : Int
  name : String
  qtype : QuestionType
deriving DecidableEq, Repr

/-- An `AnswerOption` row. -/
structure AnswerOptionRec where
  uuid : Nat
  question : Nat
  seq_id : Int
  name : String
deriving DecidableEq, Repr

/-- The relational state the statistics queries read. -/
structure Db where
  surveys : List SurveyRec
  questions : List QuestionRec
  options : List AnswerOptionRec
  sessions : List SessionRec
  answers : List UserAnswer
deriving DecidableEq, Repr

def questionOf (db : Db) (q : Nat) : Option QuestionRec :=
  db.questions.find? fun x => x.uuid == q

def optionOf (db : Db) (o : Nat) : Option AnswerOptionRec :=
  db.options.find? fun x => x.uuid == o

def surveyOf (db : Db) (s : Nat) : Option SurveyRec :=
  db.surveys.find? fun x => x.uuid == s

def sessionOf (db : Db) (sid : Nat) : Option SessionRec :=
  db.sessions.find? fun x => x.uuid == sid

/-- The base queryset of `get_survey_stat`: answer rows whose session
belongs to the survey and is COMPLETED, in store order. -/
def completedRows (db : Db) (su : Nat) : List UserAnswer :=
  db.answers.filter fun a =>
    match sessionOf db a.user_response with
    | some sess => sess.survey == su && sess.status == ResponseStatus.completed
    | none => false

/-- The correlated `total_counts` subquery of `get_survey_stat`: the number
of completed answer ROWS for a question (`Count("uuid")` grouped by
`question_id`). -/
def totalCountForQuestion (db : Db) (su q : Nat) : Nat :=
  ((completedRows db su).filter fun a => a.question == q).length

/-- `answer_count`: completed answer rows in one `(question, option)` group. -/
def answerCountFor (db : Db) (su q : Nat) (o : Option Nat) : Nat :=
  ((completedRows db su).filter fun a => a.question == q && a.answer_option == o).length

/-- The distinct group keys `(question, answer_option)` of the `values(...)`
grouping, in first-occurrence order. -/
def groupKeys (db : Db) (su : Nat) : List (Nat × Option Nat) :=
  (completedRows db su).foldl
    (fun acc a =>
      if (a.question, a.answer_option) ∈ acc then acc
      else acc ++ [(a.question, a.answer_option)])
    []

def qseq (db : Db) (q : Nat) : Int := ((questionOf db q).map fun x => x.seq_id).getD 0

def oseq (db : Db) (o : Option Nat) : Int :=
  match o with
  | some u => ((optionOf db u).map fun x => x.seq_id).getD 0
  | none => 0

/-- `order_by("question_id__seq_id", "answer_option__seq_id")` as a Boolean
comparison on group keys. -/
def keyLe (db : Db) (p1 p2 : Nat × Option Nat) : Bool :=
  decide (qseq db p1.1 < qseq db p2.1) ||
    (qseq db p1.1 == qseq db p2.1 && decide (oseq db p1.2 ≤ oseq db p2.2))

/-- Insertion step of the stable sort modelling the store's ORDER BY. -/
def insertLe {α : Type} (le : α → α → Bool) (x : α) : List α → List α
  | [] => [x]
  | y :: ys => if le x y then x :: y :: ys else y :: insertLe le x ys

/-- Insertion sort by a Boolean ordering (the store's ORDER BY). -/
def sortLe {α : Type} (le : α → α → Bool) : List α → List α
  | [] => []
  | x :: xs => insertLe le x (sortLe le xs)

/-- `Round(answer_count * 100.0 / total_count, 2)` represented in hundredths
of a percent (the two decimal places made integral, so 50.0 percent is 5000):
`round(10000 * num / den)` with half rounded up, via floor division.
A zero denominator yields 0 (the row set for the question is then empty). -/
def roundPct (num den : Nat) : ℤ := Int.fdiv (20000 * num + den) (2 * den)

/-- One output row of `UserAnswerManager.get_survey_stat`. -/
structure StatRow where
  survey_uuid : Nat
  survey_name : String
  survey_status : Option SurveyStatus
  question_uuid : Nat
  question_name : String
  question_type : Option QuestionType
  answer_uuid : Option Nat
  answer_name : String
  answer_count : Nat
  total_count : Nat
  percentage : ℤ
deriving DecidableEq, Repr

/-- `UserAnswerManager.get_survey_stat`: group completed answer rows of the
survey by `(question, answer_option)` (together with the joined survey,
question and option display fields), annotate `answer_count` (rows in the
group), `total_count` (the correlated per-question row count) and
`percentage = Round(answer_count * 100.0 / total_count, 2)`, ordered by
question `seq_id` then option `seq_id`. -/
def getSurveyStat (db : Db) (su : Nat) : List StatRow :=
  (sortLe (keyLe db) (groupKeys db su)).map fun p =>
    { survey_uuid := ((questionOf db p.1).map fun x => x.survey).getD 0
      survey_name :=
        (((questionOf db p.1).bind fun x => surveyOf db x.survey).map fun s => s.name).getD ""
      survey_status := ((questionOf db p.1).bind fun x => surveyOf db x.survey).map fun s => s.status
      question_uuid := p.1
      question_name := ((questionOf db p.1).map fun x => x.name).getD ""
      question_type := (questionOf db p.1).map fun x => x.qtype
      answer_uuid := p.2
      answer_name := ((p.2.bind fun u => optionOf db u).map fun x => x.name).getD ""
      answer_count := answerCountFor db su p.1 p.2
      total_count := totalCountForQuestion db su p.1
      percentage := roundPct (answerCountFor db su p.1 p.2) (totalCountForQuestion db su p.1) }

/-- Modelled from the claim text: the number of completed respondents who
answered the question at all (distinct sessions among the question's
completed answer rows). -/
def claimRespondentCount (db : Db) (su q : Nat) : Nat :=
  ((((completedRows db su).filter fun a => a.question == q).map fun a => a.user_response).dedup).length

/-- Concrete database for the statistics counterexamples: one survey, one
multiple-choice question with two options, one completed respondent who
selected both options. -/
def exDbC6 : Db :=
  { surveys := [⟨1, "S", SurveyStatus.active, false, none⟩]
    questions := [⟨10, 1, 1, "Q", QuestionType.multiple_choice⟩]
    options := [⟨100, 10, 1, "A"⟩, ⟨101, 10, 2, "B"⟩]
    sessions := [⟨1000, 1, some 7, ResponseStatus.completed⟩]
    answers := [⟨0, 1000, 10, some 100, none⟩, ⟨1, 1000, 10, some 101, none⟩] }

/-- C6 counterexample: one completed respondent selected two options of one
multiple-choice question. The code's `total_count` is 2 (completed answer
rows of the question) and each percentage is 50, while the claim's
`total_count_for_question` — completed respondents who answered the question
at all — is 1, under which each percentage would be 100. -/
theorem statPercentage_counterexample :
    ((getSurveyStat exDbC6 1).map fun r => (r.answer_count, r.total_count, r.percentage)) =
      [(1, 2, 5000), (1, 2, 5000)] ∧
    claimRespondentCount exDbC6 1 10 = 1 ∧
    roundPct 1 (claimRespondentCount exDbC6 1 10) = 10000 ∧
    ∀ r ∈ getSurveyStat exDbC6 1,
      r.percentage ≠ roundPct r.answer_count (claimRespondentCount exDbC6 1 r.question_uuid) := by
  refine ⟨by decide, by decide, by decide, by decide⟩

/-- C6 amended: every aggregate-statistics row's percentage equals
`round(answer_count * 100.0 / total_count, 2)` where `total_count` is the
number of completed answer ROWS recorded for that question (for
multiple-choice questions this exceeds the number of completed respondents
who answered it), and the row's stored `total_count` field is that count. -/
theorem statPercentage (db : Db) (su : Nat) (r : StatRow) (hr : r ∈ getSurveyStat db su) :
    r.total_count = totalCountForQuestion db su r.question_uuid ∧
    r.percentage = roundPct r.answer_count r.total_count := by
  rw [getSurveyStat] at hr
  simp only [List.mem_map] at hr
  obtain ⟨p, hp, rfl⟩ := hr
  exact ⟨rfl, rfl⟩

theorem statPercentage_witness :
    (StatRow.mk 1 "S" (some SurveyStatus.active) 10 "Q" (some QuestionType.multiple_choice)
        (some 100) "A" 1 2 5000) ∈ getSurveyStat exDbC6 1 ∧
    ((StatRow.mk 1 "S" (some SurveyStatus.active) 10 "Q" (some QuestionType.multiple_choice)
        (some 100) "A" 1 2 5000).total_count = totalCountForQuestion exDbC6 1 10 ∧
     (StatRow.mk 1 "S" (some SurveyStatus.active) 10 "Q" (some QuestionType.multiple_choice)
        (some 100) "A" 1 2 5000).percentage =
       roundPct (StatRow.mk 1 "S" (some SurveyStatus.active) 10 "Q"
          (some QuestionType.multiple_choice) (some 100) "A" 1 2 5000).answer_count
         (StatRow.mk 1 "S" (some SurveyStatus.active) 10 "Q"
          (some QuestionType.multiple_choice) (some 100) "A" 1 2 5000).total_count) :=
  ⟨by decide, statPercentage exDbC6 1 _ (by decide)⟩

/-! ### `StatSurveyService.stat_survey` and `add_null_answer_options` -/

/-- One entry of a grouped question's `answers` list (percentage in
hundredths of a percent, matching `StatRow.percentage`). -/
structure AnswerStat where
  uuid : Option Nat
  name : String
  count : Nat
  percentage : ℤ
deriving DecidableEq, Repr

/-- One grouped question of the stat output. `uuid = none` models the
factory's falsy initial `""`. -/
structure QuestionStat where
  uuid : Option Nat
  name : String
  qtype : Option QuestionType
  total_count : Nat
  answers : List AnswerStat
deriving DecidableEq, Repr

/-- The grouped survey of the stat output. -/
structure SurveyStat where
  uuid : Option Nat
  name : String
  status : Option SurveyStatus
  questions : List QuestionStat
deriving DecidableEq, Repr

/-- The survey accumulator while questions are still keyed by name
(`defaultdict` of `StatSurveyFactory._question_factory`). -/
structure SurveyAcc where
  uuid : Option Nat
  name : String
  status : Option SurveyStatus
  questions : List (String × QuestionStat)
deriving DecidableEq, Repr

/-- `StatSurveyFactory._question_factory`. -/
def questionFactoryDefault : QuestionStat := ⟨none, "", none, 0, []⟩

/-- `StatSurveyFactory.survey_factory`. -/
def surveyFactoryDefault : SurveyAcc := ⟨none, "", none, []⟩

/-- `defaultdict` access-and-mutate: apply `f` to the entry at key `k`,
inserting the factory default first (at the end, preserving insertion
order) when the key is absent. -/
def updateAssoc {β : Type} (dflt : β) (k : String) (f : β → β) :
    List (String × β) → List (String × β)
  | [] => [(k, f dflt)]
  | (k', v) :: rest =>
      if k' == k then (k', f v) :: rest else (k', v) :: updateAssoc dflt k f rest

/-- One iteration of the `stat_survey` accumulation loop: update the survey
entry keyed by survey NAME (overwriting uuid/name/status), update the
question entry keyed by question NAME (filling its fields only while its
uuid is still unset), and append the row's answer data. -/
def statSurveyStep (acc : List (String × SurveyAcc)) (r : StatRow) :
    List (String × SurveyAcc) :=
  updateAssoc surveyFactoryDefault r.survey_name
    (fun sv =>
      { sv with
        uuid := some r.survey_uuid
        name := r.survey_name
        status := r.survey_status
        questions :=
          updateAssoc questionFactoryDefault r.question_name
            (fun qu =>
              let qu' :=
                if qu.uuid = none then
                  { qu with
                    uuid := some r.question_uuid
                    name := r.question_name
                    qtype := r.question_type
                    total_count := r.total_count }
                else qu
              { qu' with
                answers := qu'.answers ++
                  [⟨r.answer_uuid, r.answer_name, r.answer_count, r.percentage⟩] })
            sv.questions })
    acc

/-- `StatSurveyService.stat_survey`: fold the rows into the accumulator and
extract the first survey; `none` models the `StopIteration` raised by
`next(iter(result.values()))` on an empty accumulator. -/
def statSurvey (rows : List StatRow) : Option SurveyStat :=
  match rows.foldl statSurveyStep [] with
  | [] => none
  | (_, sv) :: _ => some ⟨sv.uuid, sv.name, sv.status, sv.questions.map fun p => p.2⟩

/-- `IsSurveyStatValidator.check`: fails exactly when the stat queryset is
empty (Python queryset truthiness). -/
def isSurveyStatCheck (db : Db) (su : Nat) : Option String :=
  if getSurveyStat db su = [] then some "Статистика по опросу отсутствует" else none

lemma updateAssoc_ne_nil {β : Type} (dflt : β) (k : String) (f : β → β)
    (l : List (String × β)) : updateAssoc dflt k f l ≠ [] := by
  cases l with
  | nil => simp [updateAssoc]
  | cons x rest =>
      rcases x with ⟨k', v⟩
      unfold updateAssoc
      by_cases h : (k' == k) = true <;> simp [h]

lemma foldl_statSurveyStep_ne_nil (rows : List StatRow) :
    ∀ acc : List (String × SurveyAcc), acc ≠ [] → rows.foldl statSurveyStep acc ≠ [] := by
  induction rows with
  | nil => intro acc h; exact h
  | cons r rest ih =>
      intro acc _
      rw [List.foldl_cons]
      exact ih _ (updateAssoc_ne_nil _ _ _ acc)

/-- C10: whenever the statistics validator passed (it found at least one
grouped answer row for the survey), the `stat_survey` fold over the same row
set produces a non-empty accumulator, so extracting the first grouped survey
never hits the empty-iterator error branch. -/
theorem statAccess_safe (db : Db) (su : Nat) (h : isSurveyStatCheck db su = none) :
    (statSurvey (getSurveyStat db su)).isSome := by
  have hrows : getSurveyStat db su ≠ [] := by
    intro hnil
    rw [isSurveyStatCheck, if_pos hnil] at h
    cases h
  rw [statSurvey]
  rcases hrows' : getSurveyStat db su with _ | ⟨r, rest⟩
  · exact absurd hrows' hrows
  · have : ((r :: rest).foldl statSurveyStep []) ≠ [] := by
      rw [List.foldl_cons]
      exact foldl_statSurveyStep_ne_nil rest _ (updateAssoc_ne_nil _ _ _ [])
    rcases hacc : (r :: rest).foldl statSurveyStep [] with _ | ⟨p, acc'⟩
    · exact absurd hacc this
    · rfl

theorem statAccess_safe_witness :
    isSurveyStatCheck exDbC6 1 = none ∧ (statSurvey (getSurveyStat exDbC6 1)).isSome :=
  ⟨by decide, statAccess_safe exDbC6 1 (by decide)⟩

/-- The zero-selection options `add_null_answer_options` appends under one
grouped question: the question's options whose uuid is not among the present
answers' (truthy) uuids, annotated with count 0 and percentage 0, in the
option queryset's default `seq_id` order. -/
def nullOptionsFor (db : Db) (q : QuestionStat) : List AnswerStat :=
  (sortLe (fun a b : AnswerOptionRec => decide (a.seq_id ≤ b.seq_id))
      (db.options.filter fun o =>
        some o.question == q.uuid &&
          !((q.answers.filterMap fun a => a.uuid).contains o.uuid))).map
    fun o => ⟨some o.uuid, o.name, 0, 0⟩

/-- `StatSurveyService.add_null_answer_options`: extend each grouped
question's answer list with its zero-selection options. -/
def addNullAnswerOptions (db : Db) (stat : SurveyStat) : SurveyStat :=
  { stat with
    questions := stat.questions.map fun q =>
      { q with answers := q.answers ++ nullOptionsFor db q } }

/-- The stat endpoint's computation after validation: group with
`stat_survey`, then union in the zero-count options. -/
def statEndpoint (db : Db) (su : Nat) : Option SurveyStat :=
  (statSurvey (getSurveyStat db su)).map fun st => addNullAnswerOptions db st

/-- Concrete database for the ordering counterexample: one multiple-choice
question with options A, B, C at `seq_id` 1, 2, 3, and one completed
respondent who selected A and C but not B. -/
def exDbC7 : Db :=
  { surveys := [⟨1, "S", SurveyStatus.active, false, none⟩]
    questions := [⟨10, 1, 1, "Q", QuestionType.multiple_choice⟩]
    options := [⟨100, 10, 1, "A"⟩, ⟨101, 10, 2, "B"⟩, ⟨102, 10, 3, "C"⟩]
    sessions := [⟨1000, 1, some 7, ResponseStatus.completed⟩]
    answers := [⟨0, 1000, 10, some 100, none⟩, ⟨1, 1000, 10, some 102, none⟩] }

/-- C7 counterexample: the zero-selection option B (`seq_id` 2) is appended
after the selected options A (`seq_id` 1) and C (`seq_id` 3), with count 0
and percentage 0, so the final per-question answer list has `seq_id` order
[1, 3, 2] — not ordered overall by the option's `seq_id`. -/
theorem addNullOptions_order_counterexample :
    ((statEndpoint exDbC7 1).map fun st =>
        st.questions.map fun q => q.answers.map fun a => (a.uuid, a.count, a.percentage)) =
      some [[(some 100, 1, 5000), (some 102, 1, 5000), (some 101, 0, 0)]] ∧
    ((statEndpoint exDbC7 1).map fun st =>
        st.questions.map fun q => q.answers.map fun a => oseq exDbC7 a.uuid) =
      some [[1, 3, 2]] ∧
    ¬ List.Pairwise (fun a b : Int => a ≤ b) [1, 3, 2] :=
  ⟨by decide, by decide, by decide⟩

lemma mem_insertLe {α : Type} (le : α → α → Bool) (x a : α) (l : List α) :
    a ∈ insertLe le x l ↔ a = x ∨ a ∈ l := by
  induction l with
  | nil => simp [insertLe]
  | cons y ys ih =>
      by_cases h : le x y = true <;> simp [insertLe, h, ih] <;> tauto

lemma mem_sortLe {α : Type} (le : α → α → Bool) (a : α) (l : List α) :
    a ∈ sortLe le l ↔ a ∈ l := by
  induction l with
  | nil => simp [sortLe]
  | cons x xs ih => simp [sortLe, mem_insertLe, ih]

lemma insertLe_pairwise {α : Type} (le : α → α → Bool)
    (htot : ∀ a b, le a b || le b a) (htrans : ∀ a b c, le a b = true → le b c = true → le a c = true)
    (x : α) (l : List α) (h : l.Pairwise fun a b => le a b = true) :
    (insertLe le x l).Pairwise fun a b => le a b = true := by
  induction l with
  | nil => simp [insertLe]
  | cons y ys ih =>
      by_cases hxy : le x y = true
      · rw [insertLe, if_pos hxy]
        refine List.Pairwise.cons ?_ h
        intro z hz
        rcases List.mem_cons.1 hz with rfl | hz'
        · exact hxy
        · exact htrans x y z hxy (List.rel_of_pairwise_cons h hz')
      · rw [insertLe, if_neg hxy]
        have hyx : le y x = true := by
          have := htot x y
          rcases Bool.or_eq_true_iff.1 this with h' | h'
          · exact absurd h' hxy
          · exact h'
        refine List.Pairwise.cons ?_ (ih (List.pairwise_cons.mp h).2)
        intro z hz
        rcases (mem_insertLe le x z ys).1 hz with rfl | hz'
        · exact hyx
        · exact List.rel_of_pairwise_cons h hz'

lemma sortLe_pairwise {α : Type} (le : α → α → Bool)
    (htot : ∀ a b, le a b || le b a) (htrans : ∀ a b c, le a b = true → le b c = true → le a c = true)
    (l : List α) : (sortLe le l).Pairwise fun a b => le a b = true := by
  induction l with
  | nil => simp [sortLe]
  | cons x xs ih => exact insertLe_pairwise le htot htrans x (sortLe le xs) ih

/-- C7 amended: `add_null_answer_options` leaves each grouped question's
existing answers in place and APPENDS, after them, exactly the question's
options that received zero selections, each with count 0 and percentage 0,
the appended block ordered by the option's `seq_id`; the resulting overall
list is therefore selected-then-zero options, not globally ordered by
`seq_id`. -/
theorem addNullOptions_spec (db : Db) (stat : SurveyStat) :
    (addNullAnswerOptions db stat).questions =
      (stat.questions.map fun q => { q with answers := q.answers ++ nullOptionsFor db q }) ∧
    ∀ q : QuestionStat, ∃ opts : List AnswerOptionRec,
      nullOptionsFor db q = opts.map (fun o => ⟨some o.uuid, o.name, 0, 0⟩) ∧
      opts.Pairwise (fun a b => a.seq_id ≤ b.seq_id) ∧
      (∀ o : AnswerOptionRec, o ∈ opts ↔ o ∈ db.options ∧
        (some o.question == q.uuid &&
          !((q.answers.filterMap fun a => a.uuid).contains o.uuid)) = true) ∧
      ∀ a ∈ nullOptionsFor db q, a.count = 0 ∧ a.percentage = 0 := by
  refine ⟨rfl, ?_⟩
  intro q
  refine ⟨sortLe (fun a b : AnswerOptionRec => decide (a.seq_id ≤ b.seq_id))
      (db.options.filter fun o =>
        some o.question == q.uuid &&
          !((q.answers.filterMap fun a : AnswerStat => a.uuid).contains o.uuid)), rfl, ?_, ?_, ?_⟩
  · have := sortLe_pairwise (fun a b : AnswerOptionRec => decide (a.seq_id ≤ b.seq_id))
      (fun a b => by
        rcases le_total a.seq_id b.seq_id with h | h <;> simp [h])
      (fun a b c hab hbc => by
        simp only [decide_eq_true_eq] at hab hbc ⊢
        exact le_trans hab hbc)
      (db.options.filter fun o =>
        some o.question == q.uuid &&
          !((q.answers.filterMap fun a => a.uuid).contains o.uuid))
    exact this.imp fun h => by simpa using h
  · intro o
    rw [mem_sortLe, List.mem_filter]
  · intro a ha
    rw [nullOptionsFor] at ha
    simp only [List.mem_map] at ha
    obtain ⟨o, _, rfl⟩ := ha
    exact ⟨rfl, rfl⟩

end SurveyApp
